import Mathlib

/-!
Formal model of the portfolio static-site server (ukoquique/portfolio-check).

Each JavaScript function relevant to the specification is translated into an
executable Lean definition:

* JavaScript strings are modelled as Lean `String` (a list of characters;
  `length` counts characters, an adequate model for the inputs at hand).
* A possibly-missing value (`undefined`/`null`) is modelled as `Option`.
* JavaScript string truthiness (`!s`) is modelled as the test against `""`
  next to the `none` case of the `Option`.
* `Date.now()` is passed in explicitly as an `Int` parameter `now`.
* A JavaScript `Map` is modelled as an association list in insertion order
  (`set` overwrites in place, `delete` removes the matching entry), matching
  the iteration-order semantics of `Map.entries()`.
* The file system is modelled as a function from paths to an access result.
-/

/-! ## Generic JavaScript-flavoured string helpers -/

/-- Character membership of the JavaScript whitespace class used by `\s`
and by `String.prototype.trim` (space, tab, line terminators, NBSP, BOM
and the Unicode space separators). -/
def jsWhitespaceChar (c : Char) : Bool :=
  c = ' ' || c = '\t' || c = '\n' || c = '\r' ||
  c.toNat = 0x0b || c.toNat = 0x0c || c.toNat = 0xa0 || c.toNat = 0x1680 ||
  (0x2000 ≤ c.toNat && c.toNat ≤ 0x200a) ||
  c.toNat = 0x2028 || c.toNat = 0x2029 || c.toNat = 0x202f ||
  c.toNat = 0x205f || c.toNat = 0x3000 || c.toNat = 0xfeff

/-- Model of `String.prototype.trim`: drop leading and trailing whitespace. -/
def jsTrim (s : String) : String :=
  ⟨((s.data.dropWhile jsWhitespaceChar).reverse.dropWhile jsWhitespaceChar).reverse⟩

/-- Model of `String.prototype.toLowerCase` (ASCII range, which covers the
character classes appearing in the email regular expression). -/
def jsToLowerCase (s : String) : String :=
  ⟨s.data.map Char.toLower⟩

/-- Whether the list `hay` starts with the list `needle`. -/
def listStartsWithSeq [BEq α] : List α → List α → Bool
  | _, [] => true
  | [], _ :: _ => false
  | a :: as, b :: bs => a == b && listStartsWithSeq as bs

/-- Whether `needle` occurs as a contiguous subsequence of `hay`. -/
def listContainsSeq [BEq α] : List α → List α → Bool
  | [], needle => needle.isEmpty
  | a :: t, needle => listStartsWithSeq (a :: t) needle || listContainsSeq t needle

/-- Model of `String.prototype.includes`: substring containment. -/
def strIncludes (s sub : String) : Bool :=
  listContainsSeq s.data sub.data

/-- Model of the JavaScript idiom `x || d` on a possibly-missing string:
the default is taken when the string is `undefined` or empty. -/
def jsOrDefault (s : Option String) (d : String) : String :=
  match s with
  | none => d
  | some v => if v = "" then d else v

/-- Rendering of a possibly-undefined string inside a template literal
(JavaScript prints `undefined`). -/
def jsShowOptStr (o : Option String) : String := o.getD "undefined"

/-- Rendering of a possibly-undefined number inside a template literal. -/
def jsShowOptInt (o : Option Int) : String :=
  match o with
  | none => "undefined"
  | some n => toString n

/-! ## Regular expressions (Brzozowski derivatives)

An executable matcher for the anchored email regular expression of the
validation module.  `RE.matchString r s` decides whether the whole string
belongs to the language of `r`; since the source pattern is anchored with
`^...$`, this coincides with `regex.test(s)`. -/

/-- Regular expression syntax: empty language, empty string, a character
predicate (character class), concatenation, alternation and Kleene star. -/
inductive RE where
  | emp : RE
  | eps : RE
  | pred (p : Char → Bool) : RE
  | cat (a b : RE) : RE
  | alt (a b : RE) : RE
  | star (a : RE) : RE

/-- Whether the regular expression accepts the empty string. -/
def RE.nullable : RE → Bool
  | .emp => false
  | .eps => true
  | .pred _ => false
  | .cat a b => a.nullable && b.nullable
  | .alt a b => a.nullable || b.nullable
  | .star _ => true

/-- Brzozowski derivative of a regular expression by a character. -/
def RE.deriv : RE → Char → RE
  | .emp, _ => .emp
  | .eps, _ => .emp
  | .pred p, c => if p c then .eps else .emp
  | .cat a b, c =>
    if a.nullable then .alt (.cat (a.deriv c) b) (b.deriv c) else .cat (a.deriv c) b
  | .alt a b, c => .alt (a.deriv c) (b.deriv c)
  | .star a, c => .cat (a.deriv c) (.star a)

/-- Whether the whole character list belongs to the language of `r`. -/
def RE.matchList (r : RE) (cs : List Char) : Bool :=
  (cs.foldl RE.deriv r).nullable

/-- Whether the whole string belongs to the language of `r`. -/
def RE.matchString (r : RE) (s : String) : Bool :=
  r.matchList s.data

/-- Regular expression accepting exactly one given character. -/
def reChr (c : Char) : RE := .pred (fun x => x == c)

/-- Regular expression `r?`. -/
def reOpt (r : RE) : RE := .alt .eps r

/-- Regular expression `r+`. -/
def rePlus (r : RE) : RE := .cat r (.star r)

/-! ## Validation module (js/modules/utils/validation.js) -/

/-- Character class `[^<>()\[\]\\.,;:\s@"]` of the email regular
expression. -/
def emailAtomChar (c : Char) : Bool :=
  !(c = '<' || c = '>' || c = '(' || c = ')' || c = '[' || c = ']' ||
    c = '\\' || c = '.' || c = ',' || c = ';' || c = ':' ||
    jsWhitespaceChar c || c = '@' || c = '"')

/-- The JavaScript `.` metacharacter: any character except a line
terminator. -/
def reDotChar (c : Char) : Bool :=
  !(c = '\n' || c = '\r' || c.toNat = 0x2028 || c.toNat = 0x2029)

/-- Character class `[0-9]`. -/
def reDigitChar (c : Char) : Bool := '0' ≤ c && c ≤ '9'

/-- Character class `[a-zA-Z\-0-9]`. -/
def reAlnumHyphenChar (c : Char) : Bool :=
  ('a' ≤ c && c ≤ 'z') || ('A' ≤ c && c ≤ 'Z') || c = '-' || reDigitChar c

/-- Character class `[a-zA-Z]`. -/
def reAlphaChar (c : Char) : Bool :=
  ('a' ≤ c && c ≤ 'z') || ('A' ≤ c && c ≤ 'Z')

/-- Dotted-atoms alternative of the local part:
`[^<>()\[\]\\.,;:\s@"]+(\.[^<>()\[\]\\.,;:\s@"]+)*`. -/
def emailLocalAtoms : RE :=
  .cat (rePlus (.pred emailAtomChar))
    (.star (.cat (reChr '.') (rePlus (.pred emailAtomChar))))

/-- Quoted alternative of the local part: `".+"`. -/
def emailLocalQuoted : RE :=
  .cat (reChr '"') (.cat (rePlus (.pred reDotChar)) (reChr '"'))

/-- One to three digits: `[0-9]{1,3}`. -/
def emailOctet : RE :=
  .cat (.pred reDigitChar) (reOpt (.cat (.pred reDigitChar) (reOpt (.pred reDigitChar))))

/-- Bracketed IPv4 alternative of the domain:
`\[[0-9]{1,3}\.[0-9]{1,3}\.[0-9]{1,3}\.[0-9]{1,3}]`. -/
def emailDomainIp : RE :=
  .cat (reChr '[')
    (.cat emailOctet
      (.cat (reChr '.')
        (.cat emailOctet
          (.cat (reChr '.')
            (.cat emailOctet
              (.cat (reChr '.') (.cat emailOctet (reChr ']'))))))))

/-- Named-host alternative of the domain: `([a-zA-Z\-0-9]+\.)+[a-zA-Z]{2,}`. -/
def emailDomainName : RE :=
  .cat (rePlus (.cat (rePlus (.pred reAlnumHyphenChar)) (reChr '.')))
    (.cat (.pred reAlphaChar) (rePlus (.pred reAlphaChar)))

/-- The full anchored email regular expression of `isValidEmail`:
`^(atoms|quoted)@(ip|name)$`. -/
def emailRegex : RE :=
  .cat (.alt emailLocalAtoms emailLocalQuoted)
    (.cat (reChr '@') (.alt emailDomainIp emailDomainName))

/-- Model of `isValidEmail`: a missing or empty email is falsy and rejected,
otherwise the lowercased string is tested against the email regular
expression. -/
def isValidEmail (email : Option String) : Bool :=
  match email with
  | none => false
  | some s => if s = "" then false else RE.matchString emailRegex (jsToLowerCase s)

/-- The contact-form fields handed to `validateFormData`; each field may be
absent (`undefined`). -/
structure FormData where
  name : Option String
  email : Option String
  subject : Option String
  message : Option String

/-- The `errors` object built by `validateFormData`: at most one message per
checked field (the `subject` field is never checked). -/
structure FormErrors where
  name : Option String
  email : Option String
  message : Option String
deriving DecidableEq

/-- Number of keys of the `errors` object (`Object.keys(errors).length`). -/
def FormErrors.keysLength (e : FormErrors) : Nat :=
  (if e.name.isSome then 1 else 0) +
  (if e.email.isSome then 1 else 0) +
  (if e.message.isSome then 1 else 0)

/-- Result of `validateFormData`: the `isValid` flag and the `errors`
object. -/
structure ValidationResult where
  isValid : Bool
  errors : FormErrors
deriving DecidableEq

/-- Model of `validateFormData`: requires a nonempty trimmed `name`, a
nonempty trimmed `email` passing `isValidEmail`, and a nonempty trimmed
`message` of length at least 10; `isValid` is the emptiness of the `errors`
object. -/
def validateFormData (fd : FormData) : ValidationResult :=
  let nameError : Option String :=
    match fd.name with
    | none => some "Name is required"
    | some s => if s = "" ∨ jsTrim s = "" then some "Name is required" else none
  let emailError : Option String :=
    match fd.email with
    | none => some "Email is required"
    | some s =>
      if s = "" ∨ jsTrim s = "" then some "Email is required"
      else if !(isValidEmail (some s)) then some "Please enter a valid email address"
      else none
  let messageError : Option String :=
    match fd.message with
    | none => some "Message is required"
    | some s =>
      if s = "" ∨ jsTrim s = "" then some "Message is required"
      else if s.length < 10 then some "Message must be at least 10 characters long"
      else none
  let errors : FormErrors := ⟨nameError, emailError, messageError⟩
  ⟨errors.keysLength == 0, errors⟩

/-! ## Rate limiter (server/router.js, class RateLimiter) -/

/-- State of `RateLimiter.requests`: per-IP list of recorded timestamps.
`requests.get(ip) || []` is modelled by a total function defaulting to the
empty list. -/
def RLState := String → List Int

/-- Model of `RateLimiter.checkLimit(ip)` at current time `now`: filter the
stored timestamps to the window, deny (recording nothing) when at least
`limit` remain, otherwise record the filtered list plus `now` and allow. -/
def checkLimit (limit : Nat) (windowMs : Int) (requests : RLState) (ip : String)
    (now : Int) : Bool × RLState :=
  let userRequests := requests ip
  let recentRequests := userRequests.filter (fun time => now - time < windowMs)
  if limit ≤ recentRequests.length then
    (false, requests)
  else
    (true, fun i => if i = ip then recentRequests ++ [now] else requests i)

/-- Run the rate limiter over a list of `(ip, time)` requests, returning each
request paired with its decision, together with the final state. -/
def runLimiter (limit : Nat) (windowMs : Int) :
    RLState → List (String × Int) → List ((String × Int) × Bool) × RLState
  | st, [] => ([], st)
  | st, r :: rest =>
    let step := checkLimit limit windowMs st r.1 r.2
    let tail := runLimiter limit windowMs step.2 rest
    ((r, step.1) :: tail.1, tail.2)

/-- Number of admitted requests of `ip` whose timestamp is within the window
looking back from `now` (the filter used by `checkLimit`). -/
def admittedWithin (windowMs : Int) (ip : String) (now : Int)
    (ds : List ((String × Int) × Bool)) : Nat :=
  (ds.filter (fun d => d.2 && d.1.1 == ip && decide (now - d.1.2 < windowMs))).length

/-- Number of admitted requests of `ip` whose timestamp lies in the
half-open window `(w, w + windowMs]`. -/
def admittedInWindow (windowMs : Int) (ip : String) (w : Int)
    (ds : List ((String × Int) × Bool)) : Nat :=
  (ds.filter (fun d =>
    d.2 && d.1.1 == ip && decide (w < d.1.2) && decide (d.1.2 ≤ w + windowMs))).length

/-- The rate limiter instance of the router: `new RateLimiter(100, 60000)`. -/
def rateLimiterLimit : Nat := 100

/-- The window of the router's rate limiter, in milliseconds. -/
def rateLimiterWindowMs : Int := 60000

/-! ## Error handler (server/utils/errorHandler.js) -/

/-- An `AppError`: HTTP status, machine-readable error code and message. -/
structure AppError where
  statusCode : Nat
  errorCode : String
  message : String
deriving DecidableEq

/-- Constructor of `NotFoundError`. -/
def NotFoundError (m : Option String) : AppError :=
  ⟨404, "NOT_FOUND", jsOrDefault m "Resource not found"⟩

/-- Constructor of `ValidationError`. -/
def ValidationError (m : Option String) : AppError :=
  ⟨400, "VALIDATION_ERROR", jsOrDefault m "Validation failed"⟩

/-- Constructor of `ServerError`. -/
def ServerError (m : Option String) : AppError :=
  ⟨500, "SERVER_ERROR", jsOrDefault m "Internal server error"⟩

/-- Constructor of `FileError`; the error code defaults to `FILE_ERROR`. -/
def FileError (m : Option String) (ec : Option String) : AppError :=
  ⟨500, jsOrDefault ec "FILE_ERROR", jsOrDefault m "File operation failed"⟩

/-- A plain Node.js error reaching the handler: its `code`, `path` and
`port` properties may be absent. -/
structure NodeError where
  code : Option String
  path : Option String
  port : Option Int
  message : String

/-- Model of `mapNodeErrorToAppError`: the `errorMap` lookup over the Node
error code, defaulting to `ServerError`. -/
def mapNodeErrorToAppError (e : NodeError) : AppError :=
  match e.code with
  | none => ServerError (some e.message)
  | some c =>
    if c = "ENOENT" then NotFoundError (some ("File not found: " ++ jsShowOptStr e.path))
    else if c = "EACCES" then
      FileError (some ("Permission denied: " ++ jsShowOptStr e.path)) (some "PERMISSION_DENIED")
    else if c = "EADDRINUSE" then
      ServerError (some ("Port already in use: " ++ jsShowOptInt e.port))
    else if c = "ECONNREFUSED" then ServerError (some "Connection refused")
    else if c = "ETIMEDOUT" then ServerError (some "Connection timed out")
    else if c = "ENOTFOUND" then ServerError (some "DNS lookup failed")
    else ServerError (some e.message)

/-- An error value passed to `handleHttpError`: either an `AppError`
(`error instanceof AppError`) or a plain Node error. -/
inductive JsError where
  | app (e : AppError)
  | node (e : NodeError)

/-- The `AppError` that `handleHttpError` ends up rendering. -/
def toAppError : JsError → AppError
  | .app e => e
  | .node e => mapNodeErrorToAppError e

/-- The body written by the server: a JSON error object, one of the two
HTML error pages (the dedicated 404 page or the generic page), raw file
content, or a JSON launch body. -/
inductive ResponseBody where
  | jsonError (error : String) (message : String) (statusCode : Nat)
  | htmlNotFound (message : String)
  | htmlError (statusCode : Nat) (message : String)
  | fileContent (content : String)
deriving DecidableEq

/-- Whether a body is the JSON error rendering. -/
def ResponseBody.isJsonError : ResponseBody → Bool
  | .jsonError .. => true
  | _ => false

/-- Whether a body is one of the HTML error renderings. -/
def ResponseBody.isHtmlError : ResponseBody → Bool
  | .htmlNotFound _ => true
  | .htmlError .. => true
  | _ => false

/-- An HTTP response: status line, content type and body. -/
structure HttpResponse where
  status : Nat
  contentType : String
  body : ResponseBody
deriving DecidableEq

/-- Model of `handleHttpError`: convert a non-`AppError` via
`mapNodeErrorToAppError`, then render JSON when the `Accept` header is
present (truthy) and includes `application/json`, and HTML otherwise, in
both cases with the error's status code.  `accept` is `none` when the
request or its `Accept` header is missing (`res.req ? ... : ''`). -/
def handleHttpError (error : JsError) (accept : Option String) : HttpResponse :=
  let appError := toAppError error
  let acceptHeader := accept.getD ""
  if acceptHeader ≠ "" ∧ strIncludes acceptHeader "application/json" then
    { status := appError.statusCode, contentType := "application/json",
      body := .jsonError appError.errorCode appError.message appError.statusCode }
  else
    { status := appError.statusCode, contentType := "text/html",
      body :=
        if appError.statusCode = 404 then .htmlNotFound appError.message
        else .htmlError appError.statusCode appError.message }

/-! ## File cache and static file serving (server.js, first variant) -/

/-- An entry of `fileCache`. -/
structure CacheEntry where
  content : String
  timestamp : Int
  lastAccessed : Int
  lastModified : String
deriving DecidableEq

/-- A JavaScript `Map` as an association list in insertion order. -/
abbrev JSMap (κ β : Type) := List (κ × β)

/-- Model of `Map.prototype.get`. -/
def jsmapGet [BEq κ] (m : JSMap κ β) (k : κ) : Option β :=
  (m.find? (fun p => p.1 == k)).map (·.2)

/-- Model of `Map.prototype.set`: overwrite in place, or append. -/
def jsmapSet [BEq κ] : JSMap κ β → κ → β → JSMap κ β
  | [], k, v => [(k, v)]
  | p :: rest, k, v => if p.1 == k then (k, v) :: rest else p :: jsmapSet rest k v

/-- Model of `Map.prototype.delete`: remove the matching entry. -/
def jsmapDelete [BEq κ] (m : JSMap κ β) (k : κ) : JSMap κ β :=
  m.eraseP (fun p => p.1 == k)

/-- The `config.cache.maxSize` setting. -/
def cacheMaxSize : Nat := 50

/-- The `config.cache.ttl` setting (five minutes). -/
def cacheTtl : Int := 5 * 60 * 1000

/-- The linear scan of `manageCache`: starting from `(Date.now(), null)`,
keep the key of the entry with the strictly smallest `lastAccessed` seen so
far. -/
def findOldestKey (now : Int) (cache : JSMap String CacheEntry) : Option String :=
  (cache.foldl
    (fun acc kv => if kv.2.lastAccessed < acc.1 then (kv.2.lastAccessed, some kv.1) else acc)
    (now, none)).2

/-- Model of `manageCache`: when at capacity, scan for the least recently
accessed entry and delete it when its key is truthy (`if (oldestKey)` is
false for `null` and for an empty-string key), then insert the new entry
with both timestamps set to `now`. -/
def manageCache (now : Int) (cache : JSMap String CacheEntry) (filePath : String)
    (content : String) (lastModified : String) : JSMap String CacheEntry :=
  let cache1 :=
    if cacheMaxSize ≤ cache.length then
      match findOldestKey now cache with
      | some k => if k = "" then cache else jsmapDelete cache k
      | none => cache
    else cache
  jsmapSet cache1 filePath ⟨content, now, now, lastModified⟩

/-- Result of consulting the file system for a path: readable content plus
its last-modified date, a missing file, or another access error code. -/
inductive FsResult where
  | ok (content : String) (mtimeUTC : String)
  | enoent
  | errCode (code : String)
deriving DecidableEq

/-- Outcome of `serveStaticFile`: a response from the cache hit branch, a
response from the fresh read branch, or a thrown `AppError`. -/
inductive ServeOutcome where
  | servedCached (r : HttpResponse)
  | servedFresh (r : HttpResponse)
  | thrown (e : AppError)
deriving DecidableEq

/-- Model of `serveStaticFile` (first variant): check existence with
`fs.access` (throwing `NotFoundError` on `ENOENT`, `FileError` otherwise),
then serve a cached entry when caching is enabled and the entry's age is
below the TTL (updating `lastAccessed`), otherwise read the file, cache it
through `manageCache` when caching is enabled, and serve it. -/
def serveStaticFile (now : Int) (cacheEnabled : Bool) (fs : String → FsResult)
    (cache : JSMap String CacheEntry) (reqUrl : String) (filePath : String)
    (contentType : String) : ServeOutcome × JSMap String CacheEntry :=
  match fs filePath with
  | .enoent => (.thrown (NotFoundError (some ("Resource not found: " ++ reqUrl))), cache)
  | .errCode c =>
    (.thrown (FileError (some ("Error accessing file: " ++ filePath)) (some c)), cache)
  | .ok content mtime =>
    let cachedHit : Option CacheEntry :=
      if cacheEnabled then
        match jsmapGet cache filePath with
        | some cached => if now - cached.timestamp < cacheTtl then some cached else none
        | none => none
      else none
    match cachedHit with
    | some cached =>
      (.servedCached
        { status := 200, contentType := contentType, body := .fileContent cached.content },
       jsmapSet cache filePath { cached with lastAccessed := now })
    | none =>
      let cache1 := if cacheEnabled then manageCache now cache filePath content mtime else cache
      (.servedFresh
        { status := 200, contentType := contentType, body := .fileContent content },
       cache1)

/-- Resolution of the static file path in `processRequest`:
`config.paths.indexHtml` for `/`, otherwise `path.join(config.paths.public,
pathname)` (modelled as concatenation). -/
def resolveFilePath (indexHtml publicDir pathname : String) : String :=
  if pathname = "/" then indexHtml else publicDir ++ pathname

/-- Outcome of `processRequest`: either the router handled the request, or
the static-file path produced a response. -/
inductive ReqOutcome where
  | routed
  | response (r : HttpResponse)
deriving DecidableEq

/-- Model of `processRequest` (first variant): requests whose
`METHOD:pathname` key is registered are handled by the router; otherwise the
resolved static file is served, and any thrown error is rendered by
`handleHttpError`.  The MIME lookup is abstracted by `contentTypeFor`. -/
def processRequest (routes : List String) (method : String) (reqUrl : String)
    (pathname : String) (accept : Option String) (now : Int) (cacheEnabled : Bool)
    (fs : String → FsResult) (cache : JSMap String CacheEntry)
    (indexHtml publicDir : String) (contentTypeFor : String → String) :
    ReqOutcome × JSMap String CacheEntry :=
  if routes.contains (method ++ ":" ++ pathname) then
    (.routed, cache)
  else
    let filePath := resolveFilePath indexHtml publicDir pathname
    match serveStaticFile now cacheEnabled fs cache reqUrl filePath (contentTypeFor filePath) with
    | (.servedCached r, cache1) => (.response r, cache1)
    | (.servedFresh r, cache1) => (.response r, cache1)
    | (.thrown e, cache1) => (.response (handleHttpError (.app e) accept), cache1)

/-! ## Launch handlers (projects/.../launch.js) -/

/-- A launch endpoint response: HTTP status and the JSON body's `success`
boolean and `message` string. -/
structure LaunchResponse where
  status : Nat
  success : Bool
  message : String
deriving DecidableEq

/-- Model of the ecosystem-simulation `handleLaunch`: fail with 500 when the
project path is missing or when the run script is missing and cannot be
created; otherwise spawn the script (fire and forget: `execFails` does not
influence the response) and answer 200.  The second component records
whether the subprocess was spawned. -/
def handleLaunchEcosystem (pathExists scriptExists scriptCreateOk execFails : Bool) :
    LaunchResponse × Bool :=
  if !pathExists then
    (⟨500, false, "Ecosystem simulation path not found"⟩, false)
  else if !scriptExists && !scriptCreateOk then
    (⟨500, false, "Error creating run script"⟩, false)
  else
    (⟨200, true, "Ecosystem Simulation launched successfully!"⟩, true)

/-- Model of the code-processor `handleLaunch`: fail with 500 when the
project path or the executable is missing; a `chmod` failure is logged and
ignored; otherwise spawn the executable (fire and forget) and answer 200. -/
def handleLaunchCodeProcessor (pathExists exeExists chmodOk execFails : Bool) :
    LaunchResponse × Bool :=
  if !pathExists then
    (⟨500, false, "Code Processor path not found"⟩, false)
  else if !exeExists then
    (⟨500, false, "Code Processor executable not found"⟩, false)
  else
    (⟨200, true, "Code Processor launched successfully!"⟩, true)

/-! ## Process-level error handling (server.js, both variants) -/

/-- What a process-level handler does: exit with a code, or log and keep
running. -/
inductive ProcessAction where
  | exitProcess (code : Nat)
  | continueRunning
deriving DecidableEq

/-- Model of `handleServerError` (first variant): log, then keep running
when `NODE_ENV === 'production'` and exit with code 1 otherwise. -/
def handleServerError (nodeEnv : String) : ProcessAction :=
  if nodeEnv = "production" then .continueRunning else .exitProcess 1

/-- The first variant's `uncaughtException` handler delegates to
`handleServerError`. -/
def uncaughtExceptionV1 (nodeEnv : String) : ProcessAction := handleServerError nodeEnv

/-- The first variant's `unhandledRejection` handler delegates to
`handleServerError`. -/
def unhandledRejectionV1 (nodeEnv : String) : ProcessAction := handleServerError nodeEnv

/-- The second variant's `uncaughtException` handler: log and
`process.exit(1)` unconditionally. -/
def uncaughtExceptionV2 (nodeEnv : String) : ProcessAction := .exitProcess 1

/-- The second variant's `unhandledRejection` handler: log and
`process.exit(1)` unconditionally. -/
def unhandledRejectionV2 (nodeEnv : String) : ProcessAction := .exitProcess 1

/-! ## Concrete fixtures used by counterexamples and witnesses -/

/-- A full cache (50 entries) in which every entry was last accessed at the
very millisecond of the next `manageCache` call (`lastAccessed = 7`). -/
def tiedCache : JSMap String CacheEntry :=
  (List.range 50).map (fun i => (⟨List.replicate (i + 1) 'a'⟩, ⟨"", 7, 7, ""⟩))

/-- A full cache (50 entries) whose entries have pairwise distinct
`lastAccessed` values `0, …, 49`, all in the past of `now = 100`. -/
def agedCache : JSMap String CacheEntry :=
  (List.range 50).map (fun i => (⟨List.replicate (i + 1) 'a'⟩, ⟨"", 0, Int.ofNat i, ""⟩))

/-! ## Helper lemmas -/

theorem strIncludes_empty_json : strIncludes "" "application/json" = false := by decide

theorem handleHttpError_status (e : JsError) (accept : Option String) :
    (handleHttpError e accept).status = (toAppError e).statusCode := by
  unfold handleHttpError
  dsimp only
  split <;> rfl

theorem handleHttpError_pos (e : JsError) (s : String)
    (h : strIncludes s "application/json" = true) :
    handleHttpError e (some s) =
      { status := (toAppError e).statusCode, contentType := "application/json",
        body := .jsonError (toAppError e).errorCode (toAppError e).message
          (toAppError e).statusCode } := by
  have hs : s ≠ "" := by
    intro hempty
    rw [hempty, strIncludes_empty_json] at h
    exact Bool.false_ne_true h
  unfold handleHttpError
  rw [if_pos]
  exact ⟨hs, h⟩

theorem handleHttpError_neg (e : JsError) (accept : Option String)
    (h : ¬ ∃ s, accept = some s ∧ strIncludes s "application/json" = true) :
    handleHttpError e accept =
      { status := (toAppError e).statusCode, contentType := "text/html",
        body :=
          if (toAppError e).statusCode = 404 then .htmlNotFound (toAppError e).message
          else .htmlError (toAppError e).statusCode (toAppError e).message } := by
  unfold handleHttpError
  rw [if_neg]
  rintro ⟨hne, hinc⟩
  cases accept with
  | none => exact hne rfl
  | some s => exact h ⟨s, rfl, hinc⟩

theorem handleHttpError_json_iff (e : JsError) (accept : Option String) :
    ((handleHttpError e accept).body.isJsonError = true) ↔
      ∃ s, accept = some s ∧ strIncludes s "application/json" = true := by
  constructor
  · intro hjson
    by_contra hno
    rw [handleHttpError_neg e accept hno] at hjson
    revert hjson
    split <;> simp [ResponseBody.isJsonError]
  · rintro ⟨s, rfl, hinc⟩
    rw [handleHttpError_pos e s hinc]
    rfl

/-! ## Claim C3: launch endpoints respond with a JSON success/message body -/

/-- C3: every request reaching a launch handler gets a body with a boolean
`success` and a string `message`: `success := false` with status 500 when the
application path, executable or run script is missing (or cannot be
created), and `success := true` with status 200 exactly when the subprocess
has been spawned; the response never depends on how the subprocess later
terminates (fire and forget). -/
theorem launchHandlers_spec :
    (∀ p s w x : Bool,
      ((handleLaunchEcosystem p s w x).1.success = true ↔
        (handleLaunchEcosystem p s w x).1.status = 200) ∧
      ((handleLaunchEcosystem p s w x).1.success = false ↔
        (handleLaunchEcosystem p s w x).1.status = 500) ∧
      ((handleLaunchEcosystem p s w x).1.success = false ↔
        (p = false ∨ (s = false ∧ w = false))) ∧
      ((handleLaunchEcosystem p s w x).1.success = true ↔
        (handleLaunchEcosystem p s w x).2 = true) ∧
      handleLaunchEcosystem p s w true = handleLaunchEcosystem p s w false) ∧
    (∀ p e c x : Bool,
      ((handleLaunchCodeProcessor p e c x).1.success = true ↔
        (handleLaunchCodeProcessor p e c x).1.status = 200) ∧
      ((handleLaunchCodeProcessor p e c x).1.success = false ↔
        (handleLaunchCodeProcessor p e c x).1.status = 500) ∧
      ((handleLaunchCodeProcessor p e c x).1.success = false ↔
        (p = false ∨ e = false)) ∧
      ((handleLaunchCodeProcessor p e c x).1.success = true ↔
        (handleLaunchCodeProcessor p e c x).2 = true) ∧
      handleLaunchCodeProcessor p e true x = handleLaunchCodeProcessor p e false x ∧
      handleLaunchCodeProcessor p e c true = handleLaunchCodeProcessor p e c false) := by
  decide

/-! ## Claim C7: process-level error handling (corrected) -/

/-- C7 counterexample: in the second server variant the `uncaughtException`
handler exits with code 1 even when `NODE_ENV` is `production`, so the
process does not continue running there, contrary to the claim. -/
theorem processHandlers_counterexample :
    uncaughtExceptionV2 "production" = ProcessAction.exitProcess 1 ∧
    uncaughtExceptionV2 "production" ≠ ProcessAction.continueRunning ∧
    unhandledRejectionV2 "production" ≠ ProcessAction.continueRunning := by
  decide

/-- C7 amended: the first variant's handlers (through `handleServerError`)
exit with code 1 when `NODE_ENV` is not `production` and log-and-continue in
production; the second variant's handlers exit with code 1 regardless of
`NODE_ENV`. -/
theorem processHandlers_amended :
    ∀ nodeEnv : String,
      (uncaughtExceptionV1 nodeEnv =
        if nodeEnv = "production" then ProcessAction.continueRunning
        else ProcessAction.exitProcess 1) ∧
      (unhandledRejectionV1 nodeEnv =
        if nodeEnv = "production" then ProcessAction.continueRunning
        else ProcessAction.exitProcess 1) ∧
      uncaughtExceptionV2 nodeEnv = ProcessAction.exitProcess 1 ∧
      unhandledRejectionV2 nodeEnv = ProcessAction.exitProcess 1 :=
  fun _ => ⟨rfl, rfl, rfl, rfl⟩

/-! ## Claim C5: Accept-header driven rendering in handleHttpError -/

/-- C5: `handleHttpError` renders a JSON body exactly when the `Accept`
header is present and contains the substring `application/json`; in every
other case (including a missing header) it renders HTML; in both cases the
response status is the (mapped) error's status code, and for an `AppError`
input it is that error's own status code. -/
theorem errorHandler_accept_rendering :
    ∀ (e : JsError) (accept : Option String),
      (handleHttpError e accept).status = (toAppError e).statusCode ∧
      (∀ a : AppError, e = .app a → (handleHttpError e accept).status = a.statusCode) ∧
      (((handleHttpError e accept).body.isJsonError = true) ↔
        ∃ s, accept = some s ∧ strIncludes s "application/json" = true) ∧
      ((¬ ∃ s, accept = some s ∧ strIncludes s "application/json" = true) →
        (handleHttpError e accept).body.isHtmlError = true ∧
        (handleHttpError e accept).contentType = "text/html") := by
  intro e accept
  refine ⟨handleHttpError_status e accept, ?_, handleHttpError_json_iff e accept, ?_⟩
  · rintro a rfl
    exact handleHttpError_status (.app a) accept
  · intro hno
    rw [handleHttpError_neg e accept hno]
    constructor
    · dsimp only
      split <;> rfl
    · rfl

/-- C5 witness: a concrete instance of the rendering theorem, with the
`AppError` hypothesis and the non-JSON-accept hypothesis discharged on
concrete inputs. -/
theorem errorHandler_accept_rendering_witness :
    (handleHttpError (.app (ValidationError none)) none).status =
      (ValidationError none).statusCode ∧
    (handleHttpError (.app (ValidationError none)) none).body.isHtmlError = true :=
  ⟨(errorHandler_accept_rendering (.app (ValidationError none)) none).2.1
      (ValidationError none) rfl,
   ((errorHandler_accept_rendering (.app (ValidationError none)) none).2.2.2
      (by rintro ⟨s, hs, _⟩; exact Option.noConfusion hs)).1⟩

/-! ## Claim C6: fixed HTTP-status-tagged error categories -/

/-- C6: the four error classes carry the fixed status codes and error codes
(`FileError` defaulting to `FILE_ERROR`), and every non-`AppError` is mapped
by `mapNodeErrorToAppError` according to its Node code, defaulting to
`ServerError`. -/
theorem errorClasses_spec :
    (∀ m, (NotFoundError m).statusCode = 404 ∧ (NotFoundError m).errorCode = "NOT_FOUND") ∧
    (∀ m, (ValidationError m).statusCode = 400 ∧
      (ValidationError m).errorCode = "VALIDATION_ERROR") ∧
    (∀ m, (ServerError m).statusCode = 500 ∧ (ServerError m).errorCode = "SERVER_ERROR") ∧
    (∀ m ec, (FileError m ec).statusCode = 500) ∧
    (∀ m, (FileError m none).errorCode = "FILE_ERROR") ∧
    (∀ e : NodeError,
      (e.code = some "ENOENT" →
        mapNodeErrorToAppError e =
          NotFoundError (some ("File not found: " ++ jsShowOptStr e.path))) ∧
      (e.code = some "EACCES" →
        mapNodeErrorToAppError e =
          FileError (some ("Permission denied: " ++ jsShowOptStr e.path))
            (some "PERMISSION_DENIED")) ∧
      (e.code = some "EADDRINUSE" →
        mapNodeErrorToAppError e =
          ServerError (some ("Port already in use: " ++ jsShowOptInt e.port))) ∧
      (e.code = some "ECONNREFUSED" →
        mapNodeErrorToAppError e = ServerError (some "Connection refused")) ∧
      (e.code = some "ETIMEDOUT" →
        mapNodeErrorToAppError e = ServerError (some "Connection timed out")) ∧
      (e.code = some "ENOTFOUND" →
        mapNodeErrorToAppError e = ServerError (some "DNS lookup failed")) ∧
      ((∀ c, e.code = some c →
          c ∉ (["ENOENT", "EACCES", "EADDRINUSE", "ECONNREFUSED", "ETIMEDOUT",
                "ENOTFOUND"] : List String)) →
        mapNodeErrorToAppError e = ServerError (some e.message)) ∧
      ((mapNodeErrorToAppError e).statusCode = 404 ∨
        (mapNodeErrorToAppError e).statusCode = 500)) := by
  refine ⟨fun m => ⟨rfl, rfl⟩, fun m => ⟨rfl, rfl⟩, fun m => ⟨rfl, rfl⟩,
    fun m ec => rfl, fun m => rfl, fun e => ⟨?_, ?_, ?_, ?_, ?_, ?_, ?_, ?_⟩⟩
  · intro h; simp [mapNodeErrorToAppError, h]
  · intro h; simp [mapNodeErrorToAppError, h]
  · intro h; simp [mapNodeErrorToAppError, h]
  · intro h; simp [mapNodeErrorToAppError, h]
  · intro h; simp [mapNodeErrorToAppError, h]
  · intro h; simp [mapNodeErrorToAppError, h]
  · intro h
    cases hc : e.code with
    | none => simp [mapNodeErrorToAppError, hc]
    | some c =>
      have hnot := h c hc
      simp only [List.mem_cons, List.not_mem_nil, or_false, not_or] at hnot
      obtain ⟨h1, h2, h3, h4, h5, h6⟩ := hnot
      simp [mapNodeErrorToAppError, hc, h1, h2, h3, h4, h5, h6]
  · unfold mapNodeErrorToAppError
    cases e.code with
    | none => right; rfl
    | some c =>
      dsimp only
      split
      · left; rfl
      all_goals (try split) <;> first | (left; rfl) | (right; rfl) |
        (split <;> first | (left; rfl) | (right; rfl) |
          (split <;> first | (left; rfl) | (right; rfl) |
            (split <;> first | (left; rfl) | (right; rfl) |
              (split <;> first | (left; rfl) | (right; rfl)))))

/-- C6 witness: the mapping and class facts at concrete inputs, with each
hypothesis discharged concretely. -/
theorem errorClasses_spec_witness :
    mapNodeErrorToAppError ⟨some "ENOENT", some "/idx.html", none, "m"⟩ =
      NotFoundError (some ("File not found: " ++ jsShowOptStr (some "/idx.html"))) ∧
    mapNodeErrorToAppError ⟨some "EWOULDBLOCK", none, none, "boom"⟩ =
      ServerError (some "boom") :=
  ⟨(errorClasses_spec.2.2.2.2.2 ⟨some "ENOENT", some "/idx.html", none, "m"⟩).1 rfl,
   (errorClasses_spec.2.2.2.2.2 ⟨some "EWOULDBLOCK", none, none, "boom"⟩).2.2.2.2.2.2.1
     (by intro c hc; cases Option.some.inj hc; decide)⟩

/-! ## Claim C10: validateFormData -/

theorem jsTrim_empty : jsTrim "" = "" := rfl

theorem keysLength_eq_zero_iff (er : FormErrors) :
    (er.keysLength == 0) = true ↔ er = ⟨none, none, none⟩ := by
  obtain ⟨a, b, c⟩ := er
  cases a <;> cases b <;> cases c <;> simp [FormErrors.keysLength]

/-- C10: `validateFormData` is valid exactly when the name is present and
nonempty after trimming, the email is present, nonempty after trimming and
accepted by `isValidEmail` (the email regular expression), and the message
is present, nonempty after trimming and at least 10 characters long; the
`subject` field is never examined; and `isValid` holds exactly when the
returned `errors` object is empty. -/
theorem validateFormData_spec :
    ∀ fd : FormData,
      ((validateFormData fd).isValid = true ↔
        ((∃ n, fd.name = some n ∧ jsTrim n ≠ "") ∧
         (∃ e, fd.email = some e ∧ jsTrim e ≠ "" ∧ isValidEmail (some e) = true) ∧
         (∃ m, fd.message = some m ∧ jsTrim m ≠ "" ∧ 10 ≤ m.length))) ∧
      (∀ s₁ s₂, validateFormData { fd with subject := s₁ } =
        validateFormData { fd with subject := s₂ }) ∧
      ((validateFormData fd).isValid = true ↔
        (validateFormData fd).errors = ⟨none, none, none⟩) := by
  intro fd
  obtain ⟨nm, em, sj, ms⟩ := fd
  have hisv : (validateFormData ⟨nm, em, sj, ms⟩).isValid =
      ((validateFormData ⟨nm, em, sj, ms⟩).errors.keysLength == 0) := rfl
  refine ⟨?_, fun s₁ s₂ => rfl, ?_⟩
  · rw [hisv, keysLength_eq_zero_iff]
    show (_ : FormErrors) = ⟨none, none, none⟩ ↔ _
    rw [FormErrors.mk.injEq]
    refine and_congr ?_ (and_congr ?_ ?_)
    · cases nm with
      | none => simp [validateFormData]
      | some n =>
        by_cases h : (n = "" ∨ jsTrim n = "")
        · simp only [validateFormData, if_pos h]
          simp only [reduceCtorEq, false_iff, not_exists]
          rintro n' ⟨hn, htrim⟩
          cases Option.some.inj hn
          rcases h with rfl | h
          · exact htrim jsTrim_empty
          · exact htrim h
        · simp only [validateFormData, if_neg h]
          simp only [not_or] at h
          simp [h.2]
    · cases em with
      | none => simp [validateFormData]
      | some e =>
        by_cases h : (e = "" ∨ jsTrim e = "")
        · simp only [validateFormData, if_pos h]
          simp only [reduceCtorEq, false_iff, not_exists]
          rintro e' ⟨he, htrim, _⟩
          cases Option.some.inj he
          rcases h with rfl | h
          · exact htrim jsTrim_empty
          · exact htrim h
        · simp only [validateFormData, if_neg h]
          simp only [not_or] at h
          by_cases h' : isValidEmail (some e) = true
          · simp [h', h.2]
          · simp only [Bool.not_eq_true] at h'
            simp [h', h.2]
    · cases ms with
      | none => simp [validateFormData]
      | some m =>
        by_cases h : (m = "" ∨ jsTrim m = "")
        · simp only [validateFormData, if_pos h]
          simp only [reduceCtorEq, false_iff, not_exists]
          rintro m' ⟨hm, htrim, _⟩
          cases Option.some.inj hm
          rcases h with rfl | h
          · exact htrim jsTrim_empty
          · exact htrim h
        · simp only [validateFormData, if_neg h]
          simp only [not_or] at h
          by_cases h' : m.length < 10
          · simp [h', h.2, Nat.not_le.2 h']
          · simp [h', h.2, Nat.not_lt.1 h']
  · rw [hisv]
    exact keysLength_eq_zero_iff _

/-! ## Rate limiter lemmas -/

theorem checkLimit_cases (l : Nat) (w : Int) (st : RLState) (ip : String) (now : Int) :
    ((checkLimit l w st ip now).1 = false ∧ (checkLimit l w st ip now).2 = st ∧
      l ≤ ((st ip).filter (fun t => now - t < w)).length) ∨
    ((checkLimit l w st ip now).1 = true ∧
      ((st ip).filter (fun t => now - t < w)).length < l ∧
      (checkLimit l w st ip now).2 =
        fun i => if i = ip then (st ip).filter (fun t => now - t < w) ++ [now] else st i) := by
  unfold checkLimit
  dsimp only
  split
  · exact Or.inl ⟨rfl, rfl, by assumption⟩
  · exact Or.inr ⟨rfl, Nat.not_le.1 (by assumption), rfl⟩

theorem runLimiter_cons (l : Nat) (w : Int) (st : RLState) (r : String × Int)
    (rest : List (String × Int)) :
    runLimiter l w st (r :: rest)
      = ((r, (checkLimit l w st r.1 r.2).1)
            :: (runLimiter l w (checkLimit l w st r.1 r.2).2 rest).1,
         (runLimiter l w (checkLimit l w st r.1 r.2).2 rest).2) := rfl

theorem admittedWithin_cons (w : Int) (ip : String) (now : Int)
    (x : (String × Int) × Bool) (ds : List ((String × Int) × Bool)) :
    admittedWithin w ip now (x :: ds)
      = admittedWithin w ip now ds
        + (if x.2 && x.1.1 == ip && decide (now - x.1.2 < w) then 1 else 0) := by
  unfold admittedWithin
  rw [List.filter_cons]
  split <;> simp [Nat.add_comm]

theorem filter_window_filter (xs : List Int) (w t' now : Int) (h : t' ≤ now) :
    (xs.filter (fun t => t' - t < w)).filter (fun t => now - t < w)
      = xs.filter (fun t => now - t < w) := by
  rw [List.filter_filter]
  apply List.filter_congr
  intro t _
  by_cases hnow : now - t < w
  · have ht' : t' - t < w := by omega
    simp [hnow, ht']
  · simp [hnow]

theorem runLimiter_conservation (l : Nat) (w : Int) :
    ∀ (reqs : List (String × Int)) (st : RLState) (ip : String) (now : Int),
      (∀ r ∈ reqs, r.2 ≤ now) →
      (((runLimiter l w st reqs).2 ip).filter (fun t => now - t < w)).length
        = ((st ip).filter (fun t => now - t < w)).length
          + admittedWithin w ip now (runLimiter l w st reqs).1 := by
  intro reqs
  induction reqs with
  | nil =>
    intro st ip now _
    simp [runLimiter, admittedWithin]
  | cons r rest ih =>
    intro st ip now hle
    obtain ⟨ip', t'⟩ := r
    have ht' : t' ≤ now := hle (ip', t') (List.mem_cons_self _ _)
    have htail : ∀ x ∈ rest, x.2 ≤ now := fun x hx => hle x (List.mem_cons_of_mem _ hx)
    rw [runLimiter_cons]
    dsimp only
    rw [admittedWithin_cons]
    rcases checkLimit_cases l w st ip' t' with ⟨hb, hst, _⟩ | ⟨hb, _, hst⟩
    · rw [hb, hst, ih st ip now htail]
      simp
    · rw [hb, hst, ih _ ip now htail]
      dsimp only
      by_cases hip : ip = ip'
      · subst hip
        rw [if_pos rfl, List.filter_append, List.length_append,
          filter_window_filter _ w t' now ht', List.filter_singleton]
        have hbeq : (ip == ip) = true := beq_iff_eq.2 rfl
        by_cases hw : now - t' < w
        · simp [hw, hbeq, List.length_cons]
          omega
        · simp [hw, hbeq]
      · have hbeq : (ip' == ip) = false := by
          simp only [beq_eq_false_iff_ne, ne_eq]
          exact fun hc => hip hc.symm
        rw [if_neg hip]
        simp [hbeq]

theorem runLimiter_append (l : Nat) (w : Int) :
    ∀ (xs ys : List (String × Int)) (st : RLState),
      runLimiter l w st (xs ++ ys)
        = ((runLimiter l w st xs).1
              ++ (runLimiter l w (runLimiter l w st xs).2 ys).1,
           (runLimiter l w (runLimiter l w st xs).2 ys).2) := by
  intro xs
  induction xs with
  | nil => intro ys st; simp [runLimiter]
  | cons r rest ihx =>
    intro ys st
    rw [List.cons_append, runLimiter_cons, runLimiter_cons, ihx]
    rfl

theorem length_filter_implies {α : Type} (p q : α → Bool) (xs : List α)
    (h : ∀ a ∈ xs, p a = true → q a = true) :
    (xs.filter p).length ≤ (xs.filter q).length := by
  induction xs with
  | nil => simp
  | cons a as ihx =>
    have htail := ihx (fun b hb hpb => h b (List.mem_cons_of_mem _ hb) hpb)
    rw [List.filter_cons, List.filter_cons]
    by_cases hp : p a = true
    · rw [if_pos hp, if_pos (h a (List.mem_cons_self _ _) hp)]
      simpa using htail
    · rw [if_neg hp]
      split
      · exact Nat.le_trans htail (by simp)
      · exact htail

theorem runLimiter_window_bound (l : Nat) (w : Int) :
    ∀ (reqs : List (String × Int)),
      (reqs.map Prod.snd).Pairwise (· ≤ ·) →
      ∀ (ip : String) (wStart : Int),
        admittedInWindow w ip wStart (runLimiter l w (fun _ => []) reqs).1 ≤ l := by
  intro reqs
  induction reqs using List.reverseRecOn with
  | nil => intro _ ip wS; simp [runLimiter, admittedInWindow]
  | append_singleton xs r ihx =>
    intro hpw ip wS
    obtain ⟨ip', t'⟩ := r
    rw [List.map_append, List.pairwise_append] at hpw
    obtain ⟨hpxs, _, hcross⟩ := hpw
    have hlex : ∀ x ∈ xs, x.2 ≤ t' := by
      intro x hx
      exact hcross x.2 (List.mem_map_of_mem Prod.snd hx) t' (by simp)
    rw [runLimiter_append]
    unfold admittedInWindow
    rw [List.filter_append, List.length_append]
    have hsingle : (runLimiter l w (runLimiter l w (fun _ => []) xs).2 [(ip', t')]).1
        = [((ip', t'), (checkLimit l w (runLimiter l w (fun _ => []) xs).2 ip' t').1)] := rfl
    rw [hsingle]
    set stxs := (runLimiter l w (fun _ => []) xs).2 with hstxs
    by_cases hcnt : ((checkLimit l w stxs ip' t').1 && (ip' == ip) && decide (wS < t')
        && decide (t' ≤ wS + w)) = true
    · have hcnt' := hcnt
      simp only [Bool.and_eq_true, decide_eq_true_eq, beq_iff_eq] at hcnt'
      obtain ⟨⟨⟨hb, hip⟩, hgt⟩, hle⟩ := hcnt'
      have hlt : ((stxs ip').filter (fun t => t' - t < w)).length < l := by
        rcases checkLimit_cases l w stxs ip' t' with ⟨hfalse, _, _⟩ | ⟨_, hlen, _⟩
        · rw [hb] at hfalse; exact absurd hfalse (by simp)
        · exact hlen
      have hcons := runLimiter_conservation l w xs (fun _ => []) ip' t' hlex
      rw [← hstxs] at hcons
      simp only [List.filter_nil, List.length_nil, Nat.zero_add] at hcons
      have hmono : admittedInWindow w ip wS (runLimiter l w (fun _ => []) xs).1
          ≤ admittedWithin w ip' t' (runLimiter l w (fun _ => []) xs).1 := by
        unfold admittedInWindow admittedWithin
        apply length_filter_implies
        intro d _ hd
        simp only [Bool.and_eq_true, decide_eq_true_eq] at hd
        obtain ⟨⟨⟨hdb, hdip⟩, hdgt⟩, hdle⟩ := hd
        have h3 : t' - d.1.2 < w := by omega
        rw [hip] at *
        simp [hdb, hdip, h3]
      have hfirst : admittedInWindow w ip wS (runLimiter l w (fun _ => []) xs).1 < l := by
        calc admittedInWindow w ip wS (runLimiter l w (fun _ => []) xs).1
            ≤ admittedWithin w ip' t' (runLimiter l w (fun _ => []) xs).1 := hmono
          _ = ((stxs ip').filter (fun t => t' - t < w)).length := hcons.symm
          _ < l := hlt

      rw [List.filter_singleton]
      dsimp only
      rw [hcnt]
      unfold admittedInWindow at hfirst
      simp only [Bool.cond_true, List.length_cons, List.length_nil]
      omega
    · have hf : ((checkLimit l w stxs ip' t').1 && (ip' == ip) && decide (wS < t')
          && decide (t' ≤ wS + w)) = false := by
        cases hx : ((checkLimit l w stxs ip' t').1 && (ip' == ip) && decide (wS < t')
            && decide (t' ≤ wS + w)) with
        | false => rfl
        | true => exact absurd hx hcnt
      rw [List.filter_singleton]
      dsimp only
      rw [hf]
      simp only [Bool.cond_false, List.length_nil, Nat.add_zero]
      exact ihx hpxs ip wS

theorem checkLimit_preserves_bound (l : Nat) (w : Int) (st : RLState) (ip : String)
    (now : Int) (h : ∀ i, (st i).length ≤ l) :
    ∀ j, (((checkLimit l w st ip now).2) j).length ≤ l := by
  intro j
  rcases checkLimit_cases l w st ip now with ⟨_, hst, _⟩ | ⟨_, hlen, hst⟩
  · rw [hst]; exact h j
  · rw [hst]
    dsimp only
    by_cases hj : j = ip
    · rw [if_pos hj, List.length_append, List.length_singleton]
      omega
    · rw [if_neg hj]; exact h j

theorem runLimiter_entry_bound (l : Nat) (w : Int) :
    ∀ (reqs : List (String × Int)) (st : RLState),
      (∀ i, (st i).length ≤ l) →
      ∀ ip, (((runLimiter l w st reqs).2) ip).length ≤ l := by
  intro reqs
  induction reqs with
  | nil => intro st h ip; exact h ip
  | cons r rest ih =>
    intro st h ip
    rw [runLimiter_cons]
    exact ih _ (checkLimit_preserves_bound l w st r.1 r.2 h) ip

/-! ## Claim C1: the rate limiter admits at most 100 per IP per window -/

/-- C1: `checkLimit` denies exactly when at least 100 recorded timestamps of
that IP lie within the preceding 60000 ms; a denied call records nothing; an
allowed call records the filtered in-window list plus the current timestamp
and touches no other IP; and over any run with nondecreasing clock, at most
100 requests per IP are admitted in any 60-second window. -/
theorem rateLimiter_checkLimit_spec :
    (∀ (requests : RLState) (ip : String) (now : Int),
      ((checkLimit rateLimiterLimit rateLimiterWindowMs requests ip now).1 = false ↔
        rateLimiterLimit ≤
          ((requests ip).filter (fun t => now - t < rateLimiterWindowMs)).length) ∧
      ((checkLimit rateLimiterLimit rateLimiterWindowMs requests ip now).1 = false →
        (checkLimit rateLimiterLimit rateLimiterWindowMs requests ip now).2 = requests) ∧
      ((checkLimit rateLimiterLimit rateLimiterWindowMs requests ip now).1 = true →
        (checkLimit rateLimiterLimit rateLimiterWindowMs requests ip now).2 ip =
          ((requests ip).filter (fun t => now - t < rateLimiterWindowMs)) ++ [now] ∧
        ∀ ip', ip' ≠ ip →
          (checkLimit rateLimiterLimit rateLimiterWindowMs requests ip now).2 ip' =
            requests ip')) ∧
    (∀ (reqs : List (String × Int)),
      (reqs.map Prod.snd).Pairwise (· ≤ ·) →
      ∀ (ip : String) (w : Int),
        admittedInWindow rateLimiterWindowMs ip w
          (runLimiter rateLimiterLimit rateLimiterWindowMs (fun _ => []) reqs).1
          ≤ rateLimiterLimit) := by
  constructor
  · intro requests ip now
    rcases checkLimit_cases rateLimiterLimit rateLimiterWindowMs requests ip now with
      ⟨hb, hst, hge⟩ | ⟨hb, hlt, hst⟩
    · refine ⟨⟨fun _ => hge, fun _ => hb⟩, fun _ => hst, fun htrue => ?_⟩
      rw [hb] at htrue
      exact absurd htrue (by simp)
    · refine ⟨⟨fun hfalse => ?_, fun hge => ?_⟩, fun hfalse => ?_, fun _ => ?_⟩
      · rw [hb] at hfalse; exact absurd hfalse (by simp)
      · exact absurd hge (Nat.not_le.2 hlt)
      · rw [hb] at hfalse; exact absurd hfalse (by simp)
      · rw [hst]
        exact ⟨by simp, fun ip' hne => by simp [hne]⟩
  · exact runLimiter_window_bound rateLimiterLimit rateLimiterWindowMs

/-- C1 witness: concrete instances of the per-call clauses and of the
window bound, with every hypothesis discharged on concrete inputs. -/
theorem rateLimiter_checkLimit_spec_witness :
    (checkLimit rateLimiterLimit rateLimiterWindowMs (fun _ => []) "10.0.0.1" 5).2 "10.0.0.1"
        = (([] : List Int).filter (fun t => 5 - t < rateLimiterWindowMs)) ++ [5] ∧
    admittedInWindow rateLimiterWindowMs "10.0.0.1" 0
      (runLimiter rateLimiterLimit rateLimiterWindowMs (fun _ => [])
        [("10.0.0.1", 1), ("10.0.0.1", 2)]).1 ≤ rateLimiterLimit :=
  ⟨((rateLimiter_checkLimit_spec.1 (fun _ => []) "10.0.0.1" 5).2.2 (by decide)).1,
   rateLimiter_checkLimit_spec.2 [("10.0.0.1", 1), ("10.0.0.1", 2)]
     (by simp) "10.0.0.1" 0⟩

/-! ## Claim C8: stored timestamp lists never exceed 100 entries -/

/-- C8: a denied `checkLimit` call leaves the requests map unchanged, an
allowed call stores the filtered in-window list plus one new timestamp (of
length at most the limit), and consequently no stored per-IP list ever
grows beyond 100 entries on any run started from the empty map. -/
theorem rateLimiter_entry_bound_spec :
    (∀ (requests : RLState) (ip : String) (now : Int),
      ((checkLimit rateLimiterLimit rateLimiterWindowMs requests ip now).1 = false →
        (checkLimit rateLimiterLimit rateLimiterWindowMs requests ip now).2 = requests) ∧
      ((checkLimit rateLimiterLimit rateLimiterWindowMs requests ip now).1 = true →
        (checkLimit rateLimiterLimit rateLimiterWindowMs requests ip now).2 ip =
          ((requests ip).filter (fun t => now - t < rateLimiterWindowMs)) ++ [now] ∧
        (((checkLimit rateLimiterLimit rateLimiterWindowMs requests ip now).2 ip).length
          ≤ rateLimiterLimit))) ∧
    (∀ (reqs : List (String × Int)) (ip : String),
      (((runLimiter rateLimiterLimit rateLimiterWindowMs (fun _ => []) reqs).2 ip).length
        ≤ rateLimiterLimit)) := by
  constructor
  · intro requests ip now
    rcases checkLimit_cases rateLimiterLimit rateLimiterWindowMs requests ip now with
      ⟨hb, hst, _⟩ | ⟨hb, hlt, hst⟩
    · refine ⟨fun _ => hst, fun htrue => ?_⟩
      rw [hb] at htrue
      exact absurd htrue (by simp)
    · refine ⟨fun hfalse => ?_, fun _ => ?_⟩
      · rw [hb] at hfalse; exact absurd hfalse (by simp)
      · rw [hst]
        refine ⟨by simp, ?_⟩
        dsimp only
        rw [if_pos rfl, List.length_append, List.length_singleton]
        omega
  · intro reqs ip
    exact runLimiter_entry_bound rateLimiterLimit rateLimiterWindowMs reqs (fun _ => [])
      (fun _ => by simp) ip

/-- C8 witness: a concrete allowed call stores the filtered list plus the
new timestamp and stays within the bound. -/
theorem rateLimiter_entry_bound_spec_witness :
    (checkLimit rateLimiterLimit rateLimiterWindowMs (fun _ => []) "a" 3).2 "a"
        = (([] : List Int).filter (fun t => 3 - t < rateLimiterWindowMs)) ++ [3] ∧
    ((checkLimit rateLimiterLimit rateLimiterWindowMs (fun _ => []) "a" 3).2 "a").length
        ≤ rateLimiterLimit :=
  (rateLimiter_entry_bound_spec.1 (fun _ => []) "a" 3).2 (by decide)

/-! ## Cache lemmas -/

theorem jsmapSet_length_le [BEq κ] (m : JSMap κ β) (k : κ) (v : β) :
    (jsmapSet m k v).length ≤ m.length + 1 := by
  induction m with
  | nil => simp [jsmapSet]
  | cons p rest ih =>
    rw [jsmapSet]
    split
    · simp
    · simpa using Nat.succ_le_succ ih

theorem oldestScan_spec (l : List (String × CacheEntry)) :
    ∀ (t : Int) (k? : Option String) (r : Int × Option String),
      r = l.foldl (fun acc kv =>
        if kv.2.lastAccessed < acc.1 then (kv.2.lastAccessed, some kv.1) else acc) (t, k?) →
      r.1 ≤ t ∧ (∀ p ∈ l, r.1 ≤ p.2.lastAccessed) ∧
        (r.2 = k? ∧ r.1 = t ∨
          ∃ p ∈ l, r.2 = some p.1 ∧ r.1 = p.2.lastAccessed ∧ r.1 < t) := by
  induction l with
  | nil =>
    intro t k? r hr
    rw [List.foldl_nil] at hr
    subst hr
    exact ⟨le_refl t, by simp, Or.inl ⟨rfl, rfl⟩⟩
  | cons kv rest ih =>
    intro t k? r hr
    rw [List.foldl_cons] at hr
    by_cases h : kv.2.lastAccessed < t
    · rw [if_pos h] at hr
      obtain ⟨ih1, ih2, ih3⟩ := ih kv.2.lastAccessed (some kv.1) r hr
      refine ⟨le_trans ih1 (le_of_lt h), ?_, ?_⟩
      · intro p hp
        rcases List.mem_cons.1 hp with rfl | hp
        · exact ih1
        · exact ih2 p hp
      · rcases ih3 with ⟨hk, ht⟩ | ⟨p, hp, hk, hla, hlt⟩
        · exact Or.inr ⟨kv, List.mem_cons_self _ _, hk, ht, ht ▸ h⟩
        · exact Or.inr ⟨p, List.mem_cons_of_mem _ hp, hk, hla, lt_trans hlt h⟩
    · rw [if_neg h] at hr
      obtain ⟨ih1, ih2, ih3⟩ := ih t k? r hr
      refine ⟨ih1, ?_, ?_⟩
      · intro p hp
        rcases List.mem_cons.1 hp with rfl | hp
        · exact le_trans ih1 (not_lt.1 h)
        · exact ih2 p hp
      · rcases ih3 with hleft | ⟨p, hp, hk, hla, hlt⟩
        · exact Or.inl hleft
        · exact Or.inr ⟨p, List.mem_cons_of_mem _ hp, hk, hla, hlt⟩

theorem findOldestKey_some_spec (now : Int) (cache : JSMap String CacheEntry) (k : String)
    (h : findOldestKey now cache = some k) :
    ∃ e, (k, e) ∈ cache ∧ e.lastAccessed < now ∧
      ∀ p ∈ cache, e.lastAccessed ≤ p.2.lastAccessed := by
  unfold findOldestKey at h
  obtain ⟨_, h2, h3⟩ := oldestScan_spec cache now none _ rfl
  rcases h3 with ⟨hk, _⟩ | ⟨p, hp, hk, hla, hlt⟩
  · rw [h] at hk
    exact Option.noConfusion hk
  · rw [h] at hk
    cases Option.some.inj hk
    refine ⟨p.2, hp, ?_, ?_⟩
    · rw [← hla]; exact hlt
    · intro q hq
      rw [← hla]; exact h2 q hq

theorem findOldestKey_isSome_of (now : Int) (cache : JSMap String CacheEntry)
    (hex : ∃ p ∈ cache, p.2.lastAccessed < now) :
    ∃ k, findOldestKey now cache = some k := by
  obtain ⟨h1, h2, h3⟩ := oldestScan_spec cache now none _ rfl
  rcases h3 with ⟨hk, ht⟩ | ⟨p, _, hk, _, _⟩
  · obtain ⟨q, hq, hqlt⟩ := hex
    have hge := h2 q hq
    rw [ht] at hge
    exact absurd hqlt (not_lt.2 hge)
  · exact ⟨p.1, hk⟩

/-! ## Claim C2: bounded cache with linear-scan eviction (corrected) -/

set_option maxRecDepth 100000 in
/-- C2 counterexample: a full cache of 50 entries all last accessed at the
current millisecond (`lastAccessed = now = 7`).  The strict comparison
`entry.lastAccessed < oldestTimestamp` never fires, `oldestKey` stays null,
nothing is evicted, and inserting a fresh key grows `fileCache` to 51
entries — exceeding `config.cache.maxSize`. -/
theorem manageCache_counterexample :
    tiedCache.length = cacheMaxSize ∧
    cacheMaxSize < (manageCache 7 tiedCache "b" "c" "m").length := by
  constructor
  · decide
  · decide

/-- C2 amended: provided the cache is within capacity, every key is nonempty
and, when full, some entry was last accessed strictly before the current
time, `manageCache` keeps the cache within `config.cache.maxSize` (50); when
the cache is at capacity it first deletes an entry whose `lastAccessed` is
minimal among all entries (found by the linear scan) and then inserts the
new entry. -/
theorem manageCache_amended :
    ∀ (now : Int) (cache : JSMap String CacheEntry) (filePath content lastModified : String),
      cache.length ≤ cacheMaxSize →
      (∀ p ∈ cache, p.1 ≠ "") →
      (cache.length = cacheMaxSize → ∃ p ∈ cache, p.2.lastAccessed < now) →
      (manageCache now cache filePath content lastModified).length ≤ cacheMaxSize ∧
      (cache.length = cacheMaxSize →
        ∃ k e, (k, e) ∈ cache ∧ e.lastAccessed < now ∧
          (∀ p ∈ cache, e.lastAccessed ≤ p.2.lastAccessed) ∧
          manageCache now cache filePath content lastModified =
            jsmapSet (jsmapDelete cache k) filePath ⟨content, now, now, lastModified⟩) := by
  intro now cache filePath content lastModified hsize hkeys hmin
  by_cases hcap : cacheMaxSize ≤ cache.length
  · have heq : cache.length = cacheMaxSize := le_antisymm hsize hcap
    obtain ⟨k, hk⟩ := findOldestKey_isSome_of now cache (hmin heq)
    obtain ⟨e, hmem, hlt, hminAll⟩ := findOldestKey_some_spec now cache k hk
    have hkne : k ≠ "" := hkeys (k, e) hmem
    have hdel : (jsmapDelete cache k).length = cache.length - 1 :=
      List.length_eraseP_of_mem hmem (by simp)
    have hne : cache ≠ [] := by
      intro hnil
      rw [hnil] at hmem
      exact absurd hmem (List.not_mem_nil _)
    have hpos : 0 < cache.length := List.length_pos.2 hne
    have hunfold : manageCache now cache filePath content lastModified
        = jsmapSet (jsmapDelete cache k) filePath ⟨content, now, now, lastModified⟩ := by
      simp only [manageCache, if_pos hcap, hk]
      rw [if_neg hkne]
    refine ⟨?_, fun _ => ⟨k, e, hmem, hlt, hminAll, hunfold⟩⟩
    rw [hunfold]
    have hsetle := jsmapSet_length_le (jsmapDelete cache k) filePath
      ⟨content, now, now, lastModified⟩
    omega
  · have hunfold : manageCache now cache filePath content lastModified
        = jsmapSet cache filePath ⟨content, now, now, lastModified⟩ := by
      simp only [manageCache, if_neg hcap]
    constructor
    · rw [hunfold]
      have hsetle := jsmapSet_length_le cache filePath ⟨content, now, now, lastModified⟩
      omega
    · intro heq
      exact absurd (le_of_eq heq.symm) hcap

set_option maxRecDepth 100000 in
/-- C2 amended witness: on a concrete full cache with distinct past
`lastAccessed` values, the hypotheses hold and the size stays at 50. -/
theorem manageCache_amended_witness :
    (manageCache 100 agedCache "b" "c" "m").length ≤ cacheMaxSize :=
  (manageCache_amended 100 agedCache "b" "c" "m" (by decide) (by decide) (by decide)).1

/-! ## Claim C9: existence check precedes the cache -/

theorem serveStaticFile_enoent (now : Int) (enabled : Bool) (fs : String → FsResult)
    (cache : JSMap String CacheEntry) (reqUrl filePath contentType : String)
    (h : fs filePath = .enoent) :
    serveStaticFile now enabled fs cache reqUrl filePath contentType
      = (.thrown (NotFoundError (some ("Resource not found: " ++ reqUrl))), cache) := by
  unfold serveStaticFile
  rw [h]

/-- C9: `serveStaticFile` consults `fs.access` before the cache, so a
missing file throws `NotFoundError` (status 404) and leaves the cache
untouched even when a fresh within-TTL entry for the path exists; and a
cached entry is served only when the file still exists, caching is enabled
and the entry's age is strictly below `config.cache.ttl`. -/
theorem serveStaticFile_spec :
    ∀ (now : Int) (enabled : Bool) (fs : String → FsResult)
      (cache : JSMap String CacheEntry) (reqUrl filePath contentType : String),
      (fs filePath = .enoent →
        serveStaticFile now enabled fs cache reqUrl filePath contentType
          = (.thrown (NotFoundError (some ("Resource not found: " ++ reqUrl))), cache) ∧
        (NotFoundError (some ("Resource not found: " ++ reqUrl))).statusCode = 404) ∧
      (∀ r, (serveStaticFile now enabled fs cache reqUrl filePath contentType).1
          = .servedCached r →
        (∃ c m, fs filePath = .ok c m) ∧ enabled = true ∧
        ∃ cached, jsmapGet cache filePath = some cached ∧
          now - cached.timestamp < cacheTtl ∧ r.body = .fileContent cached.content) := by
  intro now enabled fs cache reqUrl filePath contentType
  constructor
  · intro h
    exact ⟨serveStaticFile_enoent now enabled fs cache reqUrl filePath contentType h, rfl⟩
  · intro r hr
    unfold serveStaticFile at hr
    cases hfs : fs filePath with
    | enoent =>
      rw [hfs] at hr
      exact absurd hr (by simp)
    | errCode c =>
      rw [hfs] at hr
      exact absurd hr (by simp)
    | ok content mtime =>
      rw [hfs] at hr
      dsimp only at hr
      cases enabled with
      | false =>
        simp only [Bool.false_eq_true, if_false] at hr
        exact absurd hr (by simp)
      | true =>
        simp only [if_true] at hr
        cases hget : jsmapGet cache filePath with
        | none =>
          rw [hget] at hr
          exact absurd hr (by simp)
        | some cached =>
          rw [hget] at hr
          dsimp only at hr
          by_cases httl : now - cached.timestamp < cacheTtl
          · rw [if_pos httl] at hr
            dsimp only at hr
            have hre := (ServeOutcome.servedCached.inj hr).symm
            exact ⟨⟨content, mtime, rfl⟩, rfl, cached, rfl, httl, by rw [hre]⟩
          · rw [if_neg httl] at hr
            exact absurd hr (by simp)

/-- C9 witness: with the file deleted from disk but a fresh cache entry
still present, the outcome is the thrown `NotFoundError` and the cache is
unchanged. -/
theorem serveStaticFile_spec_witness :
    serveStaticFile 0 true (fun _ => .enoent) [("/idx", ⟨"c", 0, 0, "m"⟩)] "/u" "/idx" "text/html"
      = (.thrown (NotFoundError (some ("Resource not found: " ++ "/u"))),
         [("/idx", ⟨"c", 0, 0, "m"⟩)]) :=
  ((serveStaticFile_spec 0 true (fun _ => .enoent) [("/idx", ⟨"c", 0, 0, "m"⟩)]
      "/u" "/idx" "text/html").1 rfl).1

/-! ## Claim C4: unrouted requests for missing files get the 404 body -/

theorem resourceMsg_ne_empty (u : String) : ("Resource not found: " ++ u) ≠ "" := by
  intro h
  have hlen := congrArg String.length h
  rw [String.length_append] at hlen
  have h20 : ("Resource not found: ").length = 20 := by decide
  rw [h20] at hlen
  simp at hlen

/-- C4: when the `METHOD:pathname` key matches no registered route and the
resolved file path is missing on disk (`ENOENT`), the server responds 404
with the configured body: the JSON error object with code `NOT_FOUND` when
the `Accept` header includes `application/json`, and the configured 404 HTML
page otherwise. -/
theorem notFound_response_spec :
    ∀ (routes : List String) (method reqUrl pathname : String) (accept : Option String)
      (now : Int) (enabled : Bool) (fs : String → FsResult)
      (cache : JSMap String CacheEntry) (indexHtml publicDir : String)
      (ctFor : String → String),
      routes.contains (method ++ ":" ++ pathname) = false →
      fs (resolveFilePath indexHtml publicDir pathname) = .enoent →
      ∃ r, (processRequest routes method reqUrl pathname accept now enabled fs cache
              indexHtml publicDir ctFor).1 = .response r ∧
        r.status = 404 ∧
        ((∃ s, accept = some s ∧ strIncludes s "application/json" = true) →
          r.body = .jsonError "NOT_FOUND" ("Resource not found: " ++ reqUrl) 404) ∧
        ((¬ ∃ s, accept = some s ∧ strIncludes s "application/json" = true) →
          r.body = .htmlNotFound ("Resource not found: " ++ reqUrl)) := by
  intro routes method reqUrl pathname accept now enabled fs cache indexHtml publicDir
    ctFor hroute hfs
  have hstep : (processRequest routes method reqUrl pathname accept now enabled fs cache
      indexHtml publicDir ctFor)
      = (.response (handleHttpError
          (.app (NotFoundError (some ("Resource not found: " ++ reqUrl)))) accept), cache) := by
    unfold processRequest
    rw [if_neg (show ¬(routes.contains (method ++ ":" ++ pathname) = true) by
      rw [hroute]; exact Bool.false_ne_true)]
    dsimp only
    rw [serveStaticFile_enoent now enabled fs cache reqUrl
      (resolveFilePath indexHtml publicDir pathname)
      (ctFor (resolveFilePath indexHtml publicDir pathname)) hfs]
  refine ⟨handleHttpError (.app (NotFoundError (some ("Resource not found: " ++ reqUrl)))) accept,
    by rw [hstep], ?_, ?_, ?_⟩
  · rw [handleHttpError_status]
    rfl
  · rintro ⟨s, rfl, hinc⟩
    rw [handleHttpError_pos _ s hinc]
    simp [toAppError, NotFoundError, jsOrDefault, resourceMsg_ne_empty reqUrl]
  · intro hno
    rw [handleHttpError_neg _ accept hno]
    simp [toAppError, NotFoundError, jsOrDefault, resourceMsg_ne_empty reqUrl]

/-- C4 witness: a concrete unrouted request for a missing file, once with a
JSON `Accept` header and once with none. -/
theorem notFound_response_spec_witness :
    (∃ r, (processRequest [] "GET" "/nope" "/nope" (some "application/json") 0 false
        (fun _ => .enoent) [] "/idx.html" "/pub" (fun _ => "text/plain")).1 = .response r ∧
      r.status = 404 ∧
      ((∃ s, (some "application/json" : Option String) = some s ∧
          strIncludes s "application/json" = true) →
        r.body = .jsonError "NOT_FOUND" ("Resource not found: " ++ "/nope") 404) ∧
      ((¬ ∃ s, (some "application/json" : Option String) = some s ∧
          strIncludes s "application/json" = true) →
        r.body = .htmlNotFound ("Resource not found: " ++ "/nope"))) :=
  notFound_response_spec [] "GET" "/nope" "/nope" (some "application/json") 0 false
    (fun _ => .enoent) [] "/idx.html" "/pub" (fun _ => "text/plain") (by decide) rfl
